import Mathlib

/-!
Shallow embedding of the werewolf game server engine (GameManager.js) and
proofs about its night-resolution, voting, win-evaluation and room-management
operations.  JavaScript `Map`s are modelled as insertion-ordered association
lists (`set` updates in place, keeping the position of the key), player-object
mutation as functional update of the first list element with a matching id,
and `Math.random` / `Date.now` / `nanoid` as explicit parameters.
-/

namespace MaSoi

/-- Role name constants, mirroring `ROLE_TYPES` in GameManager.js. -/
def ROLE_ALPHA_WOLF : String := "alphaWolf"

def ROLE_WOLF : String := "wolf"

def ROLE_DETECTIVE : String := "detective"

def ROLE_SEER : String := "seer"

def ROLE_WITCH : String := "witch"

def ROLE_BODYGUARD : String := "bodyguard"

def ROLE_HUNTER : String := "hunter"

def ROLE_TRAITOR : String := "traitor"

def ROLE_VILLAGER : String := "villager"

/-- Faction name constants, mirroring `FACTIONS` in GameManager.js. -/
def FACTION_WOLF : String := "wolf"

def FACTION_VILLAGER : String := "villager"

def FACTION_NEUTRAL : String := "neutral"

/-- One `{type, targetId}` submission object. -/
structure Action where
  type : String
  targetId : String
deriving DecidableEq

/-- A value stored in `room.actions`.  In the source this map is heterogeneous:
most roles store a single action object, the witch stores an array of action
objects, and `submitLawyerProtect` stores a bare target-id string under the
key `LAWYER_PROTECT`. -/
inductive AVal where
  | one : Action → AVal
  | many : List Action → AVal
  | raw : String → AVal
deriving DecidableEq

/-- `data.type` as read by the loops that do not normalise with
`Array.isArray`: reading `.type` off an array or a bare string yields
`undefined` in JavaScript, which matches no action-type string. -/
def AVal.type? : AVal → Option String
  | .one a => some a.type
  | _ => none

/-- `Array.isArray(data) ? data : [data]`.  A bare string wrapped in a
singleton array has `undefined` `type`/`targetId` fields; we model that as an
action whose type is the empty string, which matches no action-type check. -/
def AVal.asList : AVal → List Action
  | .one a => [a]
  | .many as => as
  | .raw _ => [⟨"", ""⟩]

/-- The free-form `player.attributes` bag.  A missing key reads as a falsy /
undefined value, modelled by the defaults. -/
structure Attributes where
  hasCursed : Bool := false
  hasSaved : Bool := false
  hasKilled : Bool := false
  hasProtected : Bool := false
  lastProtectedId : Option String := none
  pinnedTargetId : Option String := none
deriving DecidableEq

/-- A player object as created by `createRoom` / `joinRoom`. -/
structure Player where
  id : String
  name : String
  role : Option String := none
  faction : Option String := none
  alive : Bool := true
  connected : Bool := true
  isHost : Bool := false
  hasVoted : Bool := false
  lastAction : Nat := 0
  token : String := ""
  attributes : Attributes := {}
deriving DecidableEq

/-- One entry of `room.actionLog`.  The source pushes human-readable strings;
each constructor stands for one push site and carries the data interpolated
into the string there. -/
inductive LogEvent where
  | gameStart : Nat → LogEvent
  | curseSurvive : String → LogEvent
  | wolfKillDeath : String → LogEvent
  | noKillNight : LogEvent
  | noDeathNight : LogEvent
  | witchKillDeath : String → LogEvent
  | seerReveal : String → Bool → LogEvent
  | detectiveReveal : String → Bool → LogEvent
  | hunterLink : String → String → LogEvent
  | villagersWin : LogEvent
  | wolvesWin : LogEvent
  | voteResults : List (String × String) → LogEvent
  | lawyerSpared : String → LogEvent
  | defenseStart : String → LogEvent
  | noExecution : LogEvent
  | revealPrep : LogEvent
  | executedFinal : String → Nat → Nat → LogEvent
  | sparedFinal : String → Nat → Nat → LogEvent
  | noTargetFinal : LogEvent
  | traitorWin : String → LogEvent
  | voteStart : LogEvent
  | nightStart : LogEvent
deriving DecidableEq

/-- A room, as created by `createRoom` (second revision of GameManager.js).
`phaseTimer` models only whether a scheduler timeout is pending; transport
fields (chat log, AI durations) play no role in the verified operations and
are omitted. -/
structure Room where
  roomCode : String := ""
  ownerId : String := ""
  phase : String := "lobby"
  day : Nat := 0
  maxPlayers : Nat := 15
  players : List Player := []
  votes : List (String × Option String) := []
  actions : List (String × AVal) := []
  finalVotes : List (String × String) := []
  discussionReady : List String := []
  winner : Option String := none
  actionLog : List LogEvent := []
  aiHostEnabled : Bool := false
  aiHostId : Option String := none
  phaseTimer : Bool := false
  pendingExecutionId : Option String := none
  executedPlayerId : Option String := none
  defenseEndsAt : Option Nat := none
  lastNightDeaths : List (String × String) := []
deriving DecidableEq

/-- `Map.get`: value of the first (only, for a well-formed map) entry. -/
def mapGet {α : Type} : List (String × α) → String → Option α
  | [], _ => none
  | e :: rest, k => if e.1 == k then some e.2 else mapGet rest k

/-- `Map.set`: update in place, keeping key order; append if absent. -/
def mapSet {α : Type} (m : List (String × α)) (k : String) (v : α) :
    List (String × α) :=
  match m with
  | [] => [(k, v)]
  | e :: rest => if e.1 == k then (k, v) :: rest else e :: mapSet rest k v

/-- `Map.delete`. -/
def mapDel {α : Type} (m : List (String × α)) (k : String) : List (String × α) :=
  m.filter (fun e => !(e.1 == k))

/-- Increment a counter map entry: `m.set(k, (m.get(k) || 0) + 1)`. -/
def mapIncr (m : List (String × Nat)) (k : String) : List (String × Nat) :=
  mapSet m k ((mapGet m k).getD 0 + 1)

/-- `room.players.find(p => p.id === pid)`. -/
def findP : List Player → String → Option Player
  | [], _ => none
  | p :: rest, pid => if p.id == pid then some p else findP rest pid

/-- `room.players.find(p => p.token === tok)`. -/
def findByToken : List Player → String → Option Player
  | [], _ => none
  | p :: rest, tok => if p.token == tok then some p else findByToken rest tok

/-- Mutation through the reference returned by `players.find`: update the
first player whose id matches. -/
def updateP (ps : List Player) (pid : String) (f : Player → Player) :
    List Player :=
  match ps with
  | [] => []
  | p :: rest => if p.id == pid then f p :: rest else p :: updateP rest pid f

/-- Update the first player satisfying a predicate (used for the
reconnect-by-token path of `joinRoom`). -/
def updateFirstWhere (ps : List Player) (pred : Player → Bool)
    (f : Player → Player) : List Player :=
  match ps with
  | [] => []
  | p :: rest =>
    if pred p then f p :: rest else p :: updateFirstWhere rest pred f

/-- JavaScript truthiness of a nullable string: `null`, `undefined` and the
empty string are falsy. -/
def truthyS : Option String → Bool
  | none => false
  | some s => !(s == "")

/-- `(findP ps pid).map` of the alive flag. -/
def aliveAt (ps : List Player) (pid : String) : Option Bool :=
  (findP ps pid).map (·.alive)

/-- `(findP ps pid).map` of the faction. -/
def factionAt (ps : List Player) (pid : String) : Option (Option String) :=
  (findP ps pid).map (·.faction)

/-- `(findP ps pid).map` of the witch salvation-used flag. -/
def hasSavedAt (ps : List Player) (pid : String) : Option Bool :=
  (findP ps pid).map (·.attributes.hasSaved)

/-- Alive wolf-faction players, host excluded. -/
def wolvesCount (ps : List Player) : Nat :=
  (ps.filter (fun p => !p.isHost && p.alive && p.faction == some FACTION_WOLF)).length

/-- Alive non-wolf-faction players, host excluded.  The source test is
`p.faction !== FACTIONS.WOLF`, so an unassigned (`null`) faction counts here. -/
def othersCount (ps : List Player) : Nat :=
  (ps.filter (fun p => !p.isHost && p.alive && !(p.faction == some FACTION_WOLF))).length

/-- `GameManager.checkWin`. -/
def checkWin (room : Room) : Room :=
  let wolves := wolvesCount room.players
  let others := othersCount room.players
  let room :=
    if wolves == 0 then
      { room with winner := some "VILLAGERS", phase := "end",
                  actionLog := room.actionLog ++ [.villagersWin] }
    else if others ≤ wolves then
      { room with winner := some "WOLVES", phase := "end",
                  actionLog := room.actionLog ++ [.wolvesWin] }
    else room
  if truthyS room.winner && room.aiHostEnabled then
    if room.phaseTimer then { room with phaseTimer := false } else room
  else room

/-- Step 1 of `resolveNight` applied to one ledger entry: accumulate wolf
`KILL` ballots, the alpha wolf one-time `CURSE` target (marking `hasCursed`)
and the detective `CHECK` target.  `data.type` is read without array
normalisation, so a witch array or a bare string matches nothing. -/
def mainStep (st : List Player × List (String × Nat) × Option String × Option String)
    (entry : String × AVal) :
    List Player × List (String × Nat) × Option String × Option String :=
  match findP st.1 entry.1 with
  | none => st
  | some actor =>
    if actor.alive then
      match entry.2 with
      | AVal.one a =>
        let isWolfRole :=
          actor.role == some ROLE_WOLF || actor.role == some ROLE_ALPHA_WOLF
        let kills :=
          if isWolfRole && a.type == "KILL" then mapIncr st.2.1 a.targetId
          else st.2.1
        let curseAndPs :=
          if isWolfRole && actor.role == some ROLE_ALPHA_WOLF && a.type == "CURSE"
              && !actor.attributes.hasCursed then
            (some a.targetId,
             updateP st.1 entry.1
               (fun p => { p with attributes := { p.attributes with hasCursed := true } }))
          else (st.2.2.1, st.1)
        let det :=
          if actor.role == some ROLE_DETECTIVE && a.type == "CHECK" then some a.targetId
          else st.2.2.2
        (curseAndPs.2, kills, curseAndPs.1, det)
      | _ => st
    else st

/-- Step 1 of `resolveNight` over the whole action ledger. -/
def collectMain (ps : List Player) (acts : List (String × AVal)) :
    List Player × List (String × Nat) × Option String × Option String :=
  acts.foldl mainStep (ps, [], none, none)

/-- Step 1.5: record every hunter `PIN` into the hunter attributes before
any death is applied. -/
def pinStep (aid : String) (ps : List Player) (action : Action) : List Player :=
  match findP ps aid with
  | some actor =>
    if actor.role == some ROLE_HUNTER && action.type == "PIN" then
      updateP ps aid
        (fun p => { p with attributes := { p.attributes with pinnedTargetId := some action.targetId } })
    else ps
  | none => ps

/-- Step 1.5 over the ledger: entries of dead or unknown actors are skipped. -/
def collectPins (ps : List Player) (acts : List (String × AVal)) : List Player :=
  acts.foldl
    (fun ps entry =>
      match findP ps entry.1 with
      | some actor => if actor.alive then (entry.2.asList).foldl (pinStep entry.1) ps else ps
      | none => ps)
    ps

/-- Step 2 selection loop: running maximum with a strict `count > maxVotes`
update, over the counter map in insertion order. -/
def pickMax (counts : List (String × Nat)) : Option String :=
  (counts.foldl
    (fun acc e => if acc.1 < e.2 then (e.2, some e.1) else acc)
    ((0 : Nat), (none : Option String))).2

/-- Step 2.1: one bodyguard `PROTECT` submission (last one wins), recording
`lastProtectedId`. -/
def protectStep (aid : String) (st : List Player × Option String) (action : Action) :
    List Player × Option String :=
  match findP st.1 aid with
  | some actor =>
    if actor.role == some ROLE_BODYGUARD && actor.alive && action.type == "PROTECT" then
      (updateP st.1 aid
         (fun p => { p with attributes := { p.attributes with lastProtectedId := some action.targetId } }),
       some action.targetId)
    else st
  | none => st

/-- Step 2.1 over the ledger. -/
def collectProtection (ps : List Player) (acts : List (String × AVal)) :
    List Player × Option String :=
  acts.foldl (fun st entry => (entry.2.asList).foldl (protectStep entry.1) st) (ps, none)

/-- Step 2.5: a witch `SAVE` submission succeeds only against the consensus
kill target and only while `hasSaved` is still unset; success records the
saved target and sets `hasSaved`. -/
def witchSaveStep (killT : Option String) (aid : String)
    (st : List Player × Option String) (action : Action) :
    List Player × Option String :=
  match findP st.1 aid with
  | some actor =>
    if actor.role == some ROLE_WITCH && actor.alive && action.type == "SAVE" then
      if truthyS killT && killT == some action.targetId && !actor.attributes.hasSaved then
        (updateP st.1 aid
           (fun p => { p with attributes := { p.attributes with hasSaved := true } }),
         killT)
      else st
    else st
  | none => st

/-- Step 2.5 over the ledger. -/
def collectWitchSave (ps : List Player) (acts : List (String × AVal))
    (killT : Option String) : List Player × Option String :=
  acts.foldl (fun st entry => (entry.2.asList).foldl (witchSaveStep killT entry.1) st)
    (ps, none)

/-- Step 3: apply the consensus wolf kill.  Skipped entirely when the target
is the protected or witch-saved target; if the alpha curse names the same
target the target is converted to the wolf faction instead of dying. -/
def applyConsensusKill (ps : List Player) (killT protT saveT curseT : Option String) :
    List Player × List LogEvent :=
  if truthyS killT && !(killT == saveT) && !(killT == protT) then
    match killT with
    | some kt =>
      match findP ps kt with
      | some victim =>
        if curseT == killT then
          (updateP ps kt (fun p => { p with faction := some FACTION_WOLF }),
           [.curseSurvive victim.name])
        else
          (updateP ps kt (fun p => { p with alive := false }),
           [.wolfKillDeath victim.name])
      | none => (ps, [])
    | none => (ps, [])
  else if !(truthyS killT) then (ps, [.noKillNight])
  else if killT == protT then (ps, [.noDeathNight])
  else (ps, [.noDeathNight])

/-- Step 6 (witch `KILL` potion) for one action of one witch entry: consumes
the one-time charge; skipped silently when the target is protected by the
bodyguard (still consuming the charge). -/
def witchKillStep (protT : Option String) (aid : String)
    (st : List Player × List LogEvent) (action : Action) :
    List Player × List LogEvent :=
  if action.type == "KILL" then
    match findP st.1 aid with
    | some actor =>
      if actor.attributes.hasKilled then st
      else
        match findP st.1 action.targetId with
        | some target =>
          if target.alive then
            if some action.targetId == protT then
              (updateP st.1 aid
                 (fun p => { p with attributes := { p.attributes with hasKilled := true } }),
               st.2)
            else
              (updateP
                 (updateP st.1 action.targetId (fun p => { p with alive := false }))
                 aid
                 (fun p => { p with attributes := { p.attributes with hasKilled := true } }),
               st.2 ++ [.witchKillDeath target.name])
          else st
        | none => st
    | none => st
  else st

/-- Step 6 over the ledger; the witch-and-alive test is made once per entry,
before the inner loop, as in the source. -/
def applyWitchKills (ps : List Player) (acts : List (String × AVal))
    (protT : Option String) : List Player × List LogEvent :=
  acts.foldl
    (fun st entry =>
      match findP st.1 entry.1 with
      | some actor =>
        if actor.role == some ROLE_WITCH && actor.alive then
          (entry.2.asList).foldl (witchKillStep protT entry.1) st
        else st
      | none => st)
    (ps, [])

/-- Seer reveal loop (reads `data.type` without array normalisation). -/
def seerLogs (ps : List Player) (acts : List (String × AVal)) : List LogEvent :=
  acts.foldl
    (fun logs entry =>
      match findP ps entry.1 with
      | some actor =>
        if actor.role == some ROLE_SEER && actor.alive && entry.2.type? == some "CHECK" then
          match entry.2 with
          | AVal.one a =>
            match findP ps a.targetId with
            | some target => logs ++ [.seerReveal target.name (target.faction == some FACTION_WOLF)]
            | none => logs
          | _ => logs
        else logs
      | none => logs)
    []

/-- Detective reveal.  The source list also contains `ROLE_TYPES.LAWYER`,
which is `undefined` there and therefore never matches a stored role string,
so it is omitted. -/
def detectiveLog (ps : List Player) (detT : Option String) : List LogEvent :=
  if truthyS detT then
    match detT with
    | some dt =>
      match findP ps dt with
      | some target =>
        let hasAct :=
          target.role == some ROLE_WOLF || target.role == some ROLE_ALPHA_WOLF
            || target.role == some ROLE_DETECTIVE || target.role == some ROLE_SEER
            || target.role == some ROLE_WITCH
        [.detectiveReveal target.name hasAct]
      | none => []
    | none => []
  else []

/-- Step 7: every dead hunter holding a pinned target forces that target to
die, unconditionally.  The source iterates the player array by position while
mutating alive flags, so the fold walks positions and re-reads the current
state. -/
def applyHunterLinks (ps : List Player) : List Player × List LogEvent :=
  (List.range ps.length).foldl
    (fun st i =>
      match st.1[i]? with
      | some hunter =>
        if hunter.role == some ROLE_HUNTER && !hunter.alive
            && truthyS hunter.attributes.pinnedTargetId then
          match hunter.attributes.pinnedTargetId with
          | some tid =>
            match findP st.1 tid with
            | some target =>
              if target.alive then
                (updateP st.1 tid (fun p => { p with alive := false }),
                 st.2 ++ [.hunterLink hunter.name target.name])
              else st
            | none => st
          | none => st
        else st
      | none => st)
    (ps, [])

/-- The `wasAlive` snapshot map taken at the top of `resolveNight`. -/
def wasAliveMap (ps : List Player) : List (String × Bool) :=
  ps.foldl (fun m p => mapSet m p.id p.alive) []

/-- Step 1 outputs of `resolveNight` on a room. -/
def nightCollected (room : Room) :
    List Player × List (String × Nat) × Option String × Option String :=
  collectMain room.players room.actions

/-- Step 2: the consensus wolf-kill target of the night. -/
def nightKillTargetOf (room : Room) : Option String :=
  pickMax (nightCollected room).2.1

/-- The alpha-wolf curse target collected in step 1. -/
def nightCurseOf (room : Room) : Option String :=
  (nightCollected room).2.2.1

/-- The detective target collected in step 1. -/
def nightDetOf (room : Room) : Option String :=
  (nightCollected room).2.2.2

/-- Player registry after step 1.5 (pins recorded). -/
def nightPinned (room : Room) : List Player :=
  collectPins (nightCollected room).1 room.actions

/-- Registry and protection target after step 2.1. -/
def nightProtection (room : Room) : List Player × Option String :=
  collectProtection (nightPinned room) room.actions

/-- Registry and saved target after step 2.5. -/
def nightSaveR (room : Room) : List Player × Option String :=
  collectWitchSave (nightProtection room).1 room.actions (nightKillTargetOf room)

/-- Registry and logs after the consensus-kill step (step 3). -/
def nightConsensusR (room : Room) : List Player × List LogEvent :=
  applyConsensusKill (nightSaveR room).1 (nightKillTargetOf room)
    (nightProtection room).2 (nightSaveR room).2 (nightCurseOf room)

/-- Registry and logs after the witch kill-potion step (step 6). -/
def nightWitchR (room : Room) : List Player × List LogEvent :=
  applyWitchKills (nightConsensusR room).1 room.actions (nightProtection room).2

/-- `GameManager.resolveNight`. -/
def resolveNight (room : Room) : Room :=
  let wasAlive := wasAliveMap room.players
  let killLogs := (nightConsensusR room).2
  let witchLogs := (nightWitchR room).2
  let ps6 := (nightWitchR room).1
  let sLogs := seerLogs ps6 room.actions
  let dLogs := detectiveLog ps6 (nightDetOf room)
  let hunted := applyHunterLinks ps6
  let logs := killLogs ++ witchLogs ++ sLogs ++ dLogs ++ hunted.2
  let ps8 := hunted.1.map (fun p => { p with hasVoted := false })
  let deaths :=
    (ps8.filter (fun p => (mapGet wasAlive p.id).getD false && !p.alive && !p.isHost)).map
      (fun p => (p.id, p.name))
  let room :=
    { room with players := ps8, actions := [], lastNightDeaths := deaths }
  let room := checkWin room
  if !(room.phase == "end") then
    { room with phase := "day", discussionReady := [], pendingExecutionId := none,
                finalVotes := [], actionLog := room.actionLog ++ logs }
  else room

/-- One row of `getVoteDetails`. -/
structure VoteDetail where
  voterId : String
  voterName : String
  targetId : Option String
  targetName : String
deriving DecidableEq

/-- `GameManager.getVoteDetails`. -/
def getVoteDetails (room : Room) : List VoteDetail :=
  room.votes.map (fun e =>
    { voterId := e.1
      voterName := match findP room.players e.1 with
        | some voter => voter.name
        | none => "Unknown"
      targetId := e.2
      targetName :=
        if e.2 == some "SKIP" then "Bỏ qua"
        else match e.2 with
          | some t =>
            (match findP room.players t with
             | some target => target.name
             | none => "Unknown")
          | none => "Unknown" })

/-- The `{leaderId, leaderName, voteCount, totalVotes}` object returned by
`getVoteLeader`. -/
structure VoteLeader where
  leaderId : Option String
  leaderName : Option String
  voteCount : Nat
  totalVotes : Nat
deriving DecidableEq

/-- Day-vote counter map: non-SKIP, truthy ballots tallied in ledger order. -/
def dayVoteCounts (votes : List (String × Option String)) : List (String × Nat) :=
  votes.foldl
    (fun m e =>
      match e.2 with
      | some t => if !(t == "") && !(t == "SKIP") then mapIncr m t else m
      | none => m)
    []

/-- `GameManager.getVoteLeader` (the same running-maximum loop as the night
consensus, fetching the leader name as it goes). -/
def getVoteLeader (room : Room) : VoteLeader :=
  let counts := dayVoteCounts room.votes
  let best :=
    counts.foldl
      (fun acc e =>
        if acc.1 < e.2 then
          (e.2, some e.1,
           some (match findP room.players e.1 with
                 | some target => target.name
                 | none => "Unknown"))
        else acc)
      ((0 : Nat), (none : Option String), (none : Option String))
  { leaderId := best.2.1, leaderName := best.2.2, voteCount := best.1,
    totalVotes := room.votes.length }

/-- The plurality target of the day-vote tally in `resolveVote`. -/
def dayVoteTargetOf (votes : List (String × Option String)) : Option String :=
  pickMax (dayVoteCounts votes)

/-- The `LAWYER_PROTECT` entry as read back by `resolveVote`: only the bare
string stored by `submitLawyerProtect` can compare equal to a target id. -/
def lawyerProtectOf (acts : List (String × AVal)) : Option String :=
  match mapGet acts "LAWYER_PROTECT" with
  | some (AVal.raw s) => some s
  | _ => none

/-- `GameManager.resolveVote` (second revision: routes a plurality target to
the `defense` phase).  `now` stands for `Date.now()`. -/
def resolveVote (room : Room) (now : Nat) : Room :=
  let details := getVoteDetails room
  let voteLog := LogEvent.voteResults (details.map (fun d => (d.voterName, d.targetName)))
  let room := { room with actionLog := room.actionLog ++ [voteLog] }
  let targetId := dayVoteTargetOf room.votes
  let room :=
    { room with executedPlayerId := none, pendingExecutionId := none, defenseEndsAt := none }
  let protectedId := lawyerProtectOf room.actions
  let lawyerFired := truthyS targetId && protectedId == targetId
  let room :=
    if lawyerFired then
      let victimName :=
        match targetId with
        | some t =>
          (match findP room.players t with
           | some victim => victim.name
           | none => "Người chơi")
        | none => "Người chơi"
      { room with actionLog := room.actionLog ++ [LogEvent.lawyerSpared victimName] }
    else room
  let targetId := if lawyerFired then none else targetId
  let room := { room with votes := [], actions := mapDel room.actions "LAWYER_PROTECT" }
  let room :=
    if truthyS targetId then
      match targetId with
      | some t =>
        let victimName :=
          match findP room.players t with
          | some victim => victim.name
          | none => "Người chơi"
        { room with pendingExecutionId := some t, phase := "defense",
                    defenseEndsAt := some (now + 30000),
                    actionLog := room.actionLog ++ [LogEvent.defenseStart victimName] }
      | none => room
    else
      { room with day := room.day + 1, phase := "execution_reveal",
                  actionLog := room.actionLog ++ [.noExecution, .revealPrep] }
  checkWin room

/-- EXECUTE ballots of the final-verdict ledger. -/
def executeCount (room : Room) : Nat :=
  (room.finalVotes.filter (fun e => e.2 == "EXECUTE")).length

/-- SPARE ballots of the final-verdict ledger. -/
def spareCount (room : Room) : Nat :=
  (room.finalVotes.filter (fun e => e.2 == "SPARE")).length

/-- The common tail of `resolveFinalVerdict`: win check, then transition to
`execution_reveal` unless the game ended. -/
def finishVerdict (room : Room) : Room :=
  let room := checkWin room
  if room.phase == "end" then room
  else
    { room with pendingExecutionId := none, finalVotes := [], discussionReady := [],
                day := room.day + 1, phase := "execution_reveal",
                actionLog := room.actionLog ++ [.revealPrep] }

/-- `GameManager.resolveFinalVerdict`: the pending target dies iff EXECUTE
ballots strictly outnumber SPARE ballots; a day-1 executed traitor wins
immediately; an executed hunter drags the pinned target along. -/
def resolveFinalVerdict (room : Room) : Room :=
  let victimId := room.pendingExecutionId
  let victim? :=
    match victimId with
    | some v => findP room.players v
    | none => none
  let executeVotes := executeCount room
  let spareVotes := spareCount room
  let room := { room with executedPlayerId := none }
  match victim? with
  | some victim =>
    if spareVotes < executeVotes then
      let vid := victimId.getD ""
      let room :=
        { room with players := updateP room.players vid (fun p => { p with alive := false }),
                    executedPlayerId := victimId,
                    actionLog := room.actionLog ++ [.executedFinal victim.name executeVotes spareVotes] }
      if victim.role == some ROLE_TRAITOR && room.day == 1 then
        { room with winner := some "TRAITOR", phase := "end",
                    actionLog := room.actionLog ++ [.traitorWin victim.name] }
      else
        let room :=
          if victim.role == some ROLE_HUNTER && truthyS victim.attributes.pinnedTargetId then
            match victim.attributes.pinnedTargetId with
            | some pid =>
              (match findP room.players pid with
               | some t =>
                 if t.alive then
                   { room with players := updateP room.players pid (fun p => { p with alive := false }),
                               actionLog := room.actionLog ++ [.hunterLink victim.name t.name] }
                 else room
               | none => room)
            | none => room
          else room
        finishVerdict room
    else
      finishVerdict
        { room with actionLog := room.actionLog ++ [.sparedFinal victim.name executeVotes spareVotes] }
  | none => finishVerdict { room with actionLog := room.actionLog ++ [.noTargetFinal] }

/-- What `submitVote` hands back to the transport layer. -/
inductive VoteOutcome where
  | voteInfo : VoteLeader → List VoteDetail → VoteOutcome
  | finalInfo : String → Nat → Nat → VoteOutcome
deriving DecidableEq

/-- `GameManager.submitVote`.  The room lookup is folded in as an
`Option Room`; all invalid invocations fall through to `return null` without
touching the room. -/
def submitVote (room? : Option Room) (playerId : String) (targetId : Option String) :
    Option Room × Option VoteOutcome :=
  match room? with
  | none => (none, none)
  | some room =>
    if !(room.phase == "vote") && !(room.phase == "final_verdict") then (some room, none)
    else
      match findP room.players playerId with
      | some player =>
        if player.alive then
          if room.phase == "vote" then
            let room :=
              { room with votes := mapSet room.votes playerId targetId,
                          players := updateP room.players playerId
                            (fun p => { p with hasVoted := true }) }
            (some room, some (.voteInfo (getVoteLeader room) (getVoteDetails room)))
          else
            let choice := if targetId == some "EXECUTE" then "EXECUTE" else "SPARE"
            let room :=
              { room with finalVotes := mapSet room.finalVotes playerId choice,
                          players := updateP room.players playerId
                            (fun p => { p with hasVoted := true }) }
            let totalVotes := (room.players.filter (·.alive)).length
            let executeVotes := (room.finalVotes.filter (fun e => e.2 == "EXECUTE")).length
            (some room, some (.finalInfo choice executeVotes totalVotes))
        else (some room, none)
      | none => (some room, none)

/-- The sensitive receipt `submitAction` returns for the host log. -/
structure ActionReceipt where
  actorName : String
  actorRole : Option String
  actionType : String
  targetName : String
deriving DecidableEq

/-- The receipt target name: `find(...)?.name || 'Unknown'` (an empty
name is falsy and also becomes `Unknown`). -/
def receiptTargetName (room : Room) (targetId : String) : String :=
  match findP room.players targetId with
  | some t => if t.name == "" then "Unknown" else t.name
  | none => "Unknown"

/-- `GameManager.submitAction`.  All validation happens before any mutation;
errors therefore leave the room untouched.  A witch whose stored ledger entry
is not an array would make the source crash on `.push`; that state is
unreachable and modelled as an error. -/
def submitAction (room : Room) (playerId actionType targetId : String) :
    Except String (Room × ActionReceipt) :=
  match findP room.players playerId with
  | none => .error "Invalid player"
  | some player =>
    if !player.alive then .error "Invalid player"
    else if player.role == some ROLE_BODYGUARD && actionType == "PROTECT"
        && player.attributes.lastProtectedId == some targetId then
      .error "Không được bảo vệ cùng 1 người 2 đêm liên tiếp!"
    else
      let newEntry? : Except String AVal :=
        if player.role == some ROLE_WITCH then
          match mapGet room.actions playerId with
          | some (AVal.many as) => .ok (AVal.many (as ++ [⟨actionType, targetId⟩]))
          | none => .ok (AVal.many [⟨actionType, targetId⟩])
          | some _ => .error "TypeError"
        else .ok (AVal.one ⟨actionType, targetId⟩)
      match newEntry? with
      | .error e => .error e
      | .ok v =>
        .ok ({ room with actions := mapSet room.actions playerId v,
                         players := updateP room.players playerId
                           (fun p => { p with hasVoted := true }) },
             { actorName := player.name, actorRole := player.role,
               actionType := actionType,
               targetName := receiptTargetName room targetId })

/-- `GameManager.resetAliveState`. -/
def resetAliveState (room : Room) : Room :=
  let reset := fun (p : Player) =>
    { p with alive := true, connected := true, hasVoted := false,
             attributes := ({} : Attributes) }
  { room with players := room.players.map reset }

/-- Result object of `joinRoom`. -/
structure JoinResult where
  playerId : String
  token : String
  reconnected : Bool
deriving DecidableEq

/-- `GameManager.joinRoom` on an existing room.  `newId`/`newToken` stand for
the generated nanoids and `now` for `Date.now()`.  A truthy reconnect token
matching an existing player short-circuits every other check. -/
def joinRoom (room : Room) (playerName : String) (reconnectToken : Option String)
    (newId newToken : String) (now : Nat) : Except String (Room × JoinResult) :=
  let safe0 := if playerName == "" then "Người chơi" else playerName
  let safe := if safe0.trim == "" then "Người chơi" else safe0.trim
  let normalized := safe.take 30
  let reconnectHit : Option Player :=
    match reconnectToken with
    | some tok =>
      if !(tok == "") then findByToken room.players tok else none
    | none => none
  match reconnectHit with
  | some existing =>
    let tok := existing.token
    let reconnected :=
      updateFirstWhere room.players (fun p => p.token == tok)
        (fun p => { p with connected := true })
    let room := { room with players := reconnected }
    let room :=
      if room.phase == "night" && room.day == 1 then resetAliveState room else room
    .ok (room, { playerId := existing.id, token := existing.token, reconnected := true })
  | none =>
    if !(room.phase == "lobby") then .error "Game already started"
    else
      let currentPlayerCount : Nat := (room.players.filter (fun p => !p.isHost)).length
      if room.maxPlayers ≤ currentPlayerCount then .error "Phòng đã đầy!"
      else
        let newPlayer : Player :=
          { id := newId, name := normalized, alive := true, connected := true,
            isHost := false, hasVoted := false, lastAction := now,
            token := newToken, attributes := {} }
        .ok ({ room with players := room.players ++ [newPlayer] },
             { playerId := newId, token := newToken, reconnected := false })

/-- `ensureAIHost`: add the AI host player once.  `botId`/`botToken` stand
for the generated nanoids and `now` for `Date.now()`. -/
def ensureAIHost (room : Room) (botId botToken : String) (now : Nat) : Room :=
  if !(truthyS room.aiHostId) then
    { room with aiHostId := some botId,
                players := room.players ++
                  [{ id := botId, name := "AI Host", alive := true, connected := true,
                     isHost := true, hasVoted := false, lastAction := now,
                     token := botToken, attributes := {} }] }
  else room

/-- Swap two positions of a list (in-range Fisher-Yates swap). -/
def swapL {α : Type} (l : List α) (i j : Nat) : List α :=
  match l[i]?, l[j]? with
  | some a, some b => (l.set i b).set j a
  | _, _ => l

/-- The in-place Fisher-Yates shuffle of `assignRoles`, with the stream of
`Math.floor(Math.random() * (i + 1))` draws supplied as `rand` (reduced
mod `i + 1` to stay in range, as the source values are). -/
def shufflePool (rand : Nat → Nat) (pool : List String) : List String :=
  ((List.range pool.length).reverse).foldl
    (fun l i => if i == 0 then l else swapL l i (rand i % (i + 1)))
    pool

/-- Deal the shuffled pool to the non-host players in registry order,
resetting attributes and deriving the faction from the fixed role table.  A
pool shorter than the player list (impossible after padding) deals
`undefined`, i.e. no role and the villager faction. -/
def dealRoles : List Player → List String → List Player
  | [], _ => []
  | p :: rest, pool =>
    if p.isHost then p :: dealRoles rest pool
    else
      match pool with
      | r :: prest =>
        { p with role := some r, attributes := {},
                 faction := some
                   (if r == ROLE_ALPHA_WOLF || r == ROLE_WOLF then FACTION_WOLF
                    else if r == ROLE_TRAITOR then FACTION_NEUTRAL
                    else FACTION_VILLAGER) } :: dealRoles rest prest
      | [] =>
        { p with role := none, attributes := {}, faction := some FACTION_VILLAGER }
          :: dealRoles rest []

/-- `GameManager.assignRoles`: build the pool from the configuration, pad
with villagers up to the number of non-host players, shuffle, deal. -/
def assignRoles (room : Room) (config : List (String × Nat)) (rand : Nat → Nat) : Room :=
  let pool := config.foldl (fun acc e => acc ++ List.replicate e.2 e.1) []
  let toAssign := (room.players.filter (fun p => !p.isHost)).length
  let pool := pool ++ List.replicate (toAssign - pool.length) ROLE_VILLAGER
  let pool := shufflePool rand pool
  { room with players := dealRoles room.players pool }

/-- `GameManager.startGame` (second revision).  The only validation is the
permission check - the current phase is never examined.  All randomness and
clock reads are parameters. -/
def startGame (room : Room) (hostId : String) (roleConfig : List (String × Nat))
    (rand : Nat → Nat) (botId botToken : String) (now : Nat) : Except String Room :=
  let host? := findP room.players hostId
  let aiHostOk := room.aiHostEnabled && room.aiHostId == some hostId
  match host? with
  | none => .error "Permission denied"
  | some host =>
    if !host.isHost && !aiHostOk then .error "Permission denied"
    else
      let room :=
        if room.aiHostEnabled then
          let room := ensureAIHost room botId botToken now
          let demoted := updateP room.players room.ownerId (fun p => { p with isHost := false })
          { room with players := demoted }
        else room
      let room := resetAliveState room
      let totalPlayers := room.players.length
      let room := assignRoles room roleConfig rand
      .ok { room with phase := "night", day := 1, discussionReady := [], finalVotes := [],
                      pendingExecutionId := none, defenseEndsAt := none,
                      lastNightDeaths := [], winner := none,
                      actionLog := [.gameStart totalPlayers] }

/-- The wolf `KILL` ballots contributed by one ledger entry. -/
def wolfBallotHead (ps : List Player) (aid : String) (data : AVal) : List String :=
  match findP ps aid with
  | none => []
  | some actor =>
    if actor.alive then
      match data with
      | AVal.one a =>
        if (actor.role == some ROLE_WOLF || actor.role == some ROLE_ALPHA_WOLF)
            && a.type == "KILL" then [a.targetId]
        else []
      | _ => []
    else []

/-- The wolf `KILL` ballots that step 1 of `resolveNight` counts, in ledger
order, read against a fixed player registry (step 1 only mutates attribute
flags, which the ballot condition does not consult). -/
def wolfBallots : List (String × AVal) → List Player → List String
  | [], _ => []
  | (aid, data) :: rest, ps => wolfBallotHead ps aid data ++ wolfBallots rest ps

/-- The truthy non-SKIP day ballots counted by `resolveVote`, in ledger
order. -/
def nonSkipBallots : List (String × Option String) → List String
  | [] => []
  | (_, some t) :: rest =>
    (if !(t == "") && !(t == "SKIP") then [t] else []) ++ nonSkipBallots rest
  | (_, none) :: rest => nonSkipBallots rest

/-- Tally a ballot list into the insertion-ordered counter map. -/
def tallyBallots (bs : List String) : List (String × Nat) :=
  bs.foldl mapIncr []

/-- The selection both tallies apply: running strict maximum over the counter
map in insertion order. -/
def selectPlurality (bs : List String) : Option String :=
  pickMax (tallyBallots bs)

/-- Largest count in a counter map. -/
def maxCount (l : List (String × Nat)) : Nat :=
  l.foldr (fun e m => max e.2 m) 0

/-- Helper for `specFirstToReachMax`: scan the ballots with running counts
and return the first ballot whose target reaches a running count of `M`. -/
def firstReach (M : Nat) : List (String × Nat) → List String → Option String
  | _, [] => none
  | m, b :: rest =>
    let m := mapIncr m b
    if M ≤ (mapGet m b).getD 0 then some b else firstReach M m rest

/-- Modelled from the spec: the tie-break rule the spec describes for both
plurality tallies - among targets tied at the maximum count, select the
target whose running count, during left-to-right aggregation of the ledger,
first attains that maximum.  Stated here only to compare against the
selection the code computes. -/
def specFirstToReachMax (bs : List String) : Option String :=
  firstReach (maxCount (tallyBallots bs)) [] bs

/-- A finished game: wolves won, the host and one wolf are still alive. -/
def endRoom : Room :=
  { phase := "end", winner := some "WOLVES", day := 3,
    players :=
      [ { id := "h1", name := "Host", isHost := true },
        { id := "w1", name := "Walt", role := some ROLE_WOLF, faction := some FACTION_WOLF },
        { id := "v1", name := "Vera", role := some ROLE_VILLAGER,
          faction := some FACTION_VILLAGER, alive := false } ] }

/-- One alive wolf plus the (alive) host and nobody else. -/
def wolfHostRoom : Room :=
  { phase := "day", day := 2,
    players :=
      [ { id := "h1", name := "Host", isHost := true },
        { id := "w1", name := "Walt", role := some ROLE_WOLF, faction := some FACTION_WOLF } ] }

/-- Night ledger: a wolf targets the villager the bodyguard protects. -/
def protRoom : Room :=
  { phase := "night", day := 2,
    players :=
      [ { id := "h1", name := "Host", isHost := true },
        { id := "w1", name := "Walt", role := some ROLE_WOLF, faction := some FACTION_WOLF },
        { id := "g1", name := "Gail", role := some ROLE_BODYGUARD, faction := some FACTION_VILLAGER },
        { id := "x1", name := "Xena", role := some ROLE_VILLAGER, faction := some FACTION_VILLAGER },
        { id := "y1", name := "Yani", role := some ROLE_VILLAGER, faction := some FACTION_VILLAGER } ],
    actions := [("w1", AVal.one ⟨"KILL", "x1"⟩), ("g1", AVal.one ⟨"PROTECT", "x1"⟩)] }

/-- Night 1 of the witch-salvation scenario: the wolf kills one villager and
the witch wastes a salvation attempt on a different player. -/
def saveRoom1 : Room :=
  { phase := "night", day := 1,
    players :=
      [ { id := "h1", name := "Host", isHost := true },
        { id := "w1", name := "Walt", role := some ROLE_WOLF, faction := some FACTION_WOLF },
        { id := "t1", name := "Tara", role := some ROLE_WITCH, faction := some FACTION_VILLAGER },
        { id := "x1", name := "Xena", role := some ROLE_VILLAGER, faction := some FACTION_VILLAGER },
        { id := "y1", name := "Yani", role := some ROLE_VILLAGER, faction := some FACTION_VILLAGER },
        { id := "z1", name := "Zoe", role := some ROLE_VILLAGER, faction := some FACTION_VILLAGER } ],
    actions := [("w1", AVal.one ⟨"KILL", "y1"⟩), ("t1", AVal.many [⟨"SAVE", "x1"⟩])] }

/-- Night 2 of the witch-salvation scenario, played on the resulting room:
this time the salvation names the (new) consensus target. -/
def saveRoom2 : Room :=
  let base := resolveNight saveRoom1
  { base with
      phase := "night",
      actions := [("w1", AVal.one ⟨"KILL", "z1"⟩), ("t1", AVal.many [⟨"SAVE", "z1"⟩])] }

/-- Night 3 of the witch-salvation scenario, played after the successful
night-2 save: the witch, her charge now spent, tries to save the new
consensus target again. -/
def saveRoom3 : Room :=
  let base := resolveNight saveRoom2
  { base with
      phase := "night",
      actions := [("w1", AVal.one ⟨"KILL", "x1"⟩), ("t1", AVal.many [⟨"SAVE", "x1"⟩])] }

/-- A final-verdict round with a 2-2 EXECUTE/SPARE tie against `y1`. -/
def verdictRoom : Room :=
  { phase := "final_verdict", day := 2, pendingExecutionId := some "y1",
    players :=
      [ { id := "h1", name := "Host", isHost := true },
        { id := "w1", name := "Walt", role := some ROLE_WOLF, faction := some FACTION_WOLF },
        { id := "y1", name := "Yani", role := some ROLE_VILLAGER, faction := some FACTION_VILLAGER },
        { id := "a1", name := "Abe", role := some ROLE_VILLAGER, faction := some FACTION_VILLAGER },
        { id := "b1", name := "Bea", role := some ROLE_VILLAGER, faction := some FACTION_VILLAGER } ],
    finalVotes :=
      [("w1", "EXECUTE"), ("a1", "EXECUTE"), ("b1", "SPARE"), ("y1", "SPARE")] }

/-- Four wolves split two against two; the first ballot names `A`, but `B` is
the first target whose running count reaches the final maximum. -/
def tieNightRoom : Room :=
  { phase := "night", day := 2,
    players :=
      [ { id := "h1", name := "Host", isHost := true },
        { id := "q1", name := "Quin", role := some ROLE_WOLF, faction := some FACTION_WOLF },
        { id := "q2", name := "Qory", role := some ROLE_WOLF, faction := some FACTION_WOLF },
        { id := "q3", name := "Qrow", role := some ROLE_WOLF, faction := some FACTION_WOLF },
        { id := "q4", name := "Qell", role := some ROLE_WOLF, faction := some FACTION_WOLF },
        { id := "A", name := "Ann", role := some ROLE_VILLAGER, faction := some FACTION_VILLAGER },
        { id := "B", name := "Ben", role := some ROLE_VILLAGER, faction := some FACTION_VILLAGER } ],
    actions :=
      [("q1", AVal.one ⟨"KILL", "A"⟩), ("q2", AVal.one ⟨"KILL", "B"⟩),
       ("q3", AVal.one ⟨"KILL", "B"⟩), ("q4", AVal.one ⟨"KILL", "A"⟩)] }

/-- The same two-against-two tie as a day-vote ledger. -/
def tieDayVotes : List (String × Option String) :=
  [("q1", some "A"), ("q2", some "B"), ("q3", some "B"), ("q4", some "A")]

/-- A room already past the lobby, with its host. -/
def midGameRoom : Room :=
  { phase := "night", day := 2,
    players :=
      [ { id := "h1", name := "Host", isHost := true },
        { id := "p1", name := "Pia" },
        { id := "p2", name := "Pat" } ] }

/-- A mid-game, full room (limit already reached) holding a reconnectable
player `p2` with token `tok2`. -/
def fullRoom : Room :=
  { phase := "vote", day := 2, maxPlayers := 1,
    players :=
      [ { id := "h1", name := "Host", isHost := true, token := "tokH" },
        { id := "p1", name := "Pia", token := "tok1", connected := false },
        { id := "p2", name := "Pat", token := "tok2", connected := false } ] }

/-- A room sitting in the day-discussion phase (no vote window open). -/
def dayRoom : Room :=
  { phase := "day", day := 1,
    players :=
      [ { id := "h1", name := "Host", isHost := true },
        { id := "p1", name := "Pia" },
        { id := "d1", name := "Dan", alive := false } ],
    votes := [("p1", some "d1")] }

/-- The cursed villager of the C4 witness. -/
def curseVictim : Player :=
  { id := "x1", name := "Xena", role := some ROLE_VILLAGER,
    faction := some FACTION_VILLAGER }

/-- The combined invariant of the salvation-collection fold: the result is
either still empty or the consensus target (which is then truthy); no player
state changes while the result is empty; and a `hasSaved` flag flips only
from unset to set, and only alongside a successful salvation. -/
def SaveInv (ps : List Player) (killT : Option String)
    (st : List Player × Option String) : Prop :=
  (st.2 = none ∨ (st.2 = killT ∧ truthyS killT = true)) ∧
  (st.2 = none → st.1 = ps) ∧
  (∀ pid, hasSavedAt st.1 pid = hasSavedAt ps pid ∨
    (hasSavedAt ps pid = some false ∧ hasSavedAt st.1 pid = some true ∧
     st.2 = killT ∧ truthyS killT = true))

/-- The fields of a player the ballot conditions consult: id, role, alive. -/
def keyView (p : Player) : String × Option String × Bool :=
  (p.id, p.role, p.alive)

/-- The action ledger of a successful `submitAction` result. -/
def submittedActions : Except String (Room × ActionReceipt) → Option (List (String × AVal))
  | .ok (r, _) => some r.actions
  | .error _ => none

/-- Phase and day of a successful `startGame` result. -/
def startedPhaseDay : Except String Room → Option (String × Nat)
  | .ok r => some (r.phase, r.day)
  | .error _ => none

/-- The result record of a successful `joinRoom`. -/
def joinOutcome : Except String (Room × JoinResult) → Option JoinResult
  | .ok (_, j) => some j
  | .error _ => none

/-- The room of a successful `joinRoom`. -/
def joinedRoom : Except String (Room × JoinResult) → Option Room
  | .ok (r, _) => some r
  | .error _ => none

/-! ### Theorems: infrastructure lemmas and the verified claims -/

theorem foldl_preserves {α β : Type} (P : α → Prop) (f : α → β → α)
    (hstep : ∀ a b, P a → P (f a b)) :
    ∀ (l : List β) (init : α), P init → P (l.foldl f init)
  | [], _, h => h
  | b :: rest, init, h => foldl_preserves P f hstep rest (f init b) (hstep init b h)

/-- Looking a player up after updating the first match of another lookup. -/
theorem findP_updateP (f : Player → Player) (hf : ∀ q, (f q).id = q.id)
    (ps : List Player) (k j : String) :
    findP (updateP ps k f) j = if j = k then (findP ps k).map f else findP ps j := by
  induction ps with
  | nil => simp only [updateP, findP]; split <;> rfl
  | cons p rest ih =>
    simp only [updateP]
    by_cases hpk : p.id = k
    · simp only [beq_iff_eq, hpk, if_true, findP, hf p]
      by_cases hjk : j = k
      · simp [hjk]
      · simp [beq_iff_eq, hjk, Ne.symm hjk, hpk]
    · simp only [beq_iff_eq, hpk, if_false, findP]
      by_cases hpj : p.id = j
      · have hjk : ¬(j = k) := fun h => hpk (h ▸ hpj)
        simp [beq_iff_eq, hpj, hjk]
      · simp [beq_iff_eq, hpj, ih]

/-- An id-preserving, alive-preserving update leaves `aliveAt` unchanged. -/
theorem aliveAt_updateP (f : Player → Player) (hid : ∀ q, (f q).id = q.id)
    (hal : ∀ q, (f q).alive = q.alive) (ps : List Player) (k j : String) :
    aliveAt (updateP ps k f) j = aliveAt ps j := by
  simp only [aliveAt, findP_updateP f hid]
  by_cases h : j = k
  · subst h; cases findP ps j <;> simp [hal]
  · simp [h]

/-- An id-preserving update leaves `aliveAt` at other ids unchanged. -/
theorem aliveAt_updateP_ne (f : Player → Player) (hid : ∀ q, (f q).id = q.id)
    (ps : List Player) (k j : String) (h : j ≠ k) :
    aliveAt (updateP ps k f) j = aliveAt ps j := by
  simp [aliveAt, findP_updateP f hid, h]

/-- An id-preserving, flag-preserving update leaves `hasSavedAt` unchanged. -/
theorem hasSavedAt_updateP (f : Player → Player) (hid : ∀ q, (f q).id = q.id)
    (hsv : ∀ q, (f q).attributes.hasSaved = q.attributes.hasSaved)
    (ps : List Player) (k j : String) :
    hasSavedAt (updateP ps k f) j = hasSavedAt ps j := by
  simp only [hasSavedAt, findP_updateP f hid]
  by_cases h : j = k
  · subst h; cases findP ps j <;> simp [hsv]
  · simp [h]

/-- Claim C2.  The win evaluator counts only non-host alive players: with
`W = wolvesCount` and `O = othersCount` it declares the villagers winners and
ends the game when `W = 0`, declares the wolves winners and ends the game
when `O` is at most `W` (and `W > 0`), and otherwise changes neither `winner`
nor `phase`; in particular a room holding one alive wolf and the host yields
a wolf win. -/
theorem checkWin_excludes_host (room : Room) :
    ((checkWin room).winner, (checkWin room).phase) =
      (if wolvesCount room.players = 0 then (some "VILLAGERS", "end")
       else if othersCount room.players ≤ wolvesCount room.players then (some "WOLVES", "end")
       else (room.winner, room.phase)) ∧
    ((checkWin wolfHostRoom).winner, (checkWin wolfHostRoom).phase) =
      (some "WOLVES", "end") := by
  refine ⟨?_, by decide⟩
  unfold checkWin
  by_cases h0 : wolvesCount room.players = 0
  · simp only [h0, beq_self_eq_true, if_true]
    split <;> (try split) <;> simp [h0]
  · simp only [beq_iff_eq, h0, if_false]
    by_cases h1 : othersCount room.players ≤ wolvesCount room.players
    · simp only [h1, if_true]
      split <;> (try split) <;> simp [h0, h1]
    · simp only [h1, if_false]
      split <;> (try split) <;> simp [h0, h1]

/-- An attribute-only update never changes `aliveAt`. -/
theorem aliveAt_update_attr (ps : List Player) (k j : String)
    (f : Attributes → Attributes) :
    aliveAt (updateP ps k (fun p => { p with attributes := f p.attributes })) j
      = aliveAt ps j :=
  aliveAt_updateP (fun p => { p with attributes := f p.attributes })
    (fun _ => rfl) (fun _ => rfl) ps k j

/-- A faction-only update never changes `aliveAt`. -/
theorem aliveAt_update_faction (ps : List Player) (k j : String) (v : Option String) :
    aliveAt (updateP ps k (fun p => { p with faction := v })) j = aliveAt ps j :=
  aliveAt_updateP (fun p => { p with faction := v }) (fun _ => rfl) (fun _ => rfl) ps k j

/-- Killing one player leaves the `aliveAt` of every other id unchanged. -/
theorem aliveAt_update_kill_ne (ps : List Player) (k j : String) (h : j ≠ k) :
    aliveAt (updateP ps k (fun p => { p with alive := false })) j = aliveAt ps j :=
  aliveAt_updateP_ne (fun p => { p with alive := false }) (fun _ => rfl) ps k j h

/-- The consensus-kill step never changes the alive flag of the protected
player: its kill branch fires only when the target differs from the
protection target, and the curse branch touches only the faction. -/
theorem applyConsensusKill_protected (ps : List Player)
    (killT saveT curseT : Option String) (g : String) :
    aliveAt (applyConsensusKill ps killT (some g) saveT curseT).1 g = aliveAt ps g := by
  unfold applyConsensusKill
  by_cases hc : (truthyS killT && !(killT == saveT) && !(killT == some g)) = true
  · rw [if_pos hc]
    simp only [Bool.and_eq_true, Bool.not_eq_true'] at hc
    cases killT with
    | none => simp [truthyS] at hc
    | some kt =>
      have hkg : kt ≠ g := by
        intro h
        rw [h] at hc
        simp at hc
      dsimp only
      cases hfind : findP ps kt with
      | none => rfl
      | some victim =>
        dsimp only
        by_cases hcu : (curseT == some kt) = true
        · rw [if_pos hcu]
          exact aliveAt_update_faction ps kt g (some FACTION_WOLF)
        · rw [if_neg hcu]
          exact aliveAt_update_kill_ne ps kt g (Ne.symm hkg)
  · rw [if_neg hc]
    split <;> (try split) <;> rfl

/-- One witch kill-potion action never changes the alive flag of the
protected player: a protected target only consumes the charge. -/
theorem witchKillStep_protected (g aid : String) (ps0 : List Player)
    (st : List Player × List LogEvent) (action : Action)
    (h : aliveAt st.1 g = aliveAt ps0 g) :
    aliveAt (witchKillStep (some g) aid st action).1 g = aliveAt ps0 g := by
  unfold witchKillStep
  split
  · cases hfa : findP st.1 aid with
    | none => exact h
    | some actor =>
      dsimp only
      by_cases hk : actor.attributes.hasKilled = true
      · rw [if_pos hk]; exact h
      · rw [if_neg hk]
        cases hft : findP st.1 action.targetId with
        | none => exact h
        | some target =>
          dsimp only
          by_cases hal : target.alive = true
          · rw [if_pos hal]
            by_cases hprot : (some action.targetId == some g) = true
            · rw [if_pos hprot]
              exact (aliveAt_update_attr st.1 aid g
                (fun a => { a with hasKilled := true })).trans h
            · rw [if_neg hprot]
              have htg : g ≠ action.targetId := by
                intro hgt
                rw [hgt] at hprot
                simp at hprot
              calc aliveAt (updateP (updateP st.1 action.targetId
                        (fun p => { p with alive := false })) aid
                        (fun p => { p with attributes := { p.attributes with hasKilled := true } })) g
                  = aliveAt (updateP st.1 action.targetId
                        (fun p => { p with alive := false })) g :=
                    aliveAt_update_attr _ aid g (fun a => { a with hasKilled := true })
                _ = aliveAt st.1 g := aliveAt_update_kill_ne st.1 action.targetId g htg
                _ = aliveAt ps0 g := h
          · rw [if_neg hal]; exact h
  · exact h

/-- The whole witch kill-potion pass never changes the alive flag of the
protected player. -/
theorem applyWitchKills_protected (ps0 : List Player) (acts : List (String × AVal))
    (g : String) :
    aliveAt (applyWitchKills ps0 acts (some g)).1 g = aliveAt ps0 g := by
  unfold applyWitchKills
  refine foldl_preserves
    (fun (st : List Player × List LogEvent) => aliveAt st.1 g = aliveAt ps0 g)
    _ ?_ acts (ps0, []) rfl
  intro st entry h
  dsimp only
  cases hf : findP st.1 entry.1 with
  | none => exact h
  | some actor =>
    dsimp only
    by_cases hw : (actor.role == some ROLE_WITCH && actor.alive) = true
    · rw [if_pos hw]
      refine foldl_preserves
        (fun (st2 : List Player × List LogEvent) => aliveAt st2.1 g = aliveAt ps0 g)
        _ ?_ _ st h
      intro st2 action h2
      exact witchKillStep_protected g entry.1 ps0 st2 action h2
    · rw [if_neg hw]; exact h

/-- Claim C3.  Within one night-resolution pass, a player whose id is the
bodyguard protection target of that night is never marked dead by the
consensus wolf-kill step, nor by the witch kill-potion step; the only kill
path of the engine that bypasses the protection is the hunter death link. -/
theorem guard_protection_blocks_consensus (room : Room) (g : String)
    (hp : (nightProtection room).2 = some g) :
    aliveAt (nightConsensusR room).1 g = aliveAt (nightSaveR room).1 g ∧
    aliveAt (nightWitchR room).1 g = aliveAt (nightConsensusR room).1 g := by
  constructor
  · unfold nightConsensusR
    rw [hp]
    exact applyConsensusKill_protected _ _ _ _ _
  · unfold nightWitchR
    rw [hp]
    exact applyWitchKills_protected _ _ _

/-- Witness for C3: in `protRoom` the bodyguard protects `x1`, the wolves
target `x1`, and `x1` survives both kill steps. -/
theorem guard_protection_blocks_consensus_wit :
    aliveAt (nightConsensusR protRoom).1 "x1" = aliveAt (nightSaveR protRoom).1 "x1" ∧
    aliveAt (nightWitchR protRoom).1 "x1" = aliveAt (nightConsensusR protRoom).1 "x1" :=
  guard_protection_blocks_consensus protRoom "x1" (by decide)

/-- Updating the first match again finds the updated player. -/
theorem findP_updateP_self (f : Player → Player) (hid : ∀ q, (f q).id = q.id)
    (ps : List Player) (k : String) (q : Player) (h : findP ps k = some q) :
    findP (updateP ps k f) k = some (f q) := by
  rw [findP_updateP f hid]
  simp [h]

/-- An id- and faction-preserving update leaves `factionAt` unchanged. -/
theorem factionAt_updateP (f : Player → Player) (hid : ∀ q, (f q).id = q.id)
    (hfa : ∀ q, (f q).faction = q.faction) (ps : List Player) (k j : String) :
    factionAt (updateP ps k f) j = factionAt ps j := by
  simp only [factionAt, findP_updateP f hid]
  by_cases h : j = k
  · subst h; cases findP ps j <;> simp [hfa]
  · simp [h]

/-- Claim C4.  When the consensus kill is not skipped and the alpha curse
names the same target, the target is converted to the wolf faction and its
alive flag is untouched; when the curse names a different target, the target
dies and its faction is untouched - the same wolf action never both converts
and kills. -/
theorem curse_kill_exclusive (ps : List Player) (killT protT saveT curseT : Option String)
    (t : String) (victim : Player)
    (hk : killT = some t) (ht : t ≠ "")
    (hs : saveT ≠ some t) (hp : protT ≠ some t)
    (hv : findP ps t = some victim) :
    (curseT = some t →
      factionAt (applyConsensusKill ps killT protT saveT curseT).1 t
          = some (some FACTION_WOLF) ∧
      aliveAt (applyConsensusKill ps killT protT saveT curseT).1 t = aliveAt ps t) ∧
    (curseT ≠ some t →
      aliveAt (applyConsensusKill ps killT protT saveT curseT).1 t = some false ∧
      factionAt (applyConsensusKill ps killT protT saveT curseT).1 t = factionAt ps t) := by
  subst hk
  have h1 : truthyS (some t) = true := by simp [truthyS, ht]
  have h2 : (some t == saveT) = false := beq_eq_false_iff_ne.mpr (fun h => hs h.symm)
  have h3 : (some t == protT) = false := beq_eq_false_iff_ne.mpr (fun h => hp h.symm)
  have hcond : (truthyS (some t) && !(some t == saveT) && !(some t == protT)) = true := by
    simp [h1, h2, h3]
  unfold applyConsensusKill
  rw [if_pos hcond]
  dsimp only
  rw [hv]
  dsimp only
  constructor
  · intro hcu
    have hcub : (curseT == some t) = true := by simp [hcu]
    rw [if_pos hcub]
    dsimp only
    constructor
    · simp [factionAt,
        findP_updateP_self (fun p => { p with faction := some FACTION_WOLF })
          (fun _ => rfl) ps t victim hv]
    · exact aliveAt_update_faction ps t t (some FACTION_WOLF)
  · intro hcu
    have hcub : (curseT == some t) = false := beq_eq_false_iff_ne.mpr hcu
    rw [if_neg (by simp [hcub])]
    dsimp only
    constructor
    · simp [aliveAt,
        findP_updateP_self (fun p => { p with alive := false })
          (fun _ => rfl) ps t victim hv]
    · exact factionAt_updateP (fun p => { p with alive := false })
        (fun _ => rfl) (fun _ => rfl) ps t t

/-- Witness for C4: the wolves target `x1`, the alpha curse also names `x1`,
nothing protects or saves `x1`: `x1` is converted, not killed. -/
theorem curse_kill_exclusive_wit :
    factionAt (applyConsensusKill [curseVictim]
        (some "x1") none none (some "x1")).1 "x1" = some (some FACTION_WOLF) ∧
    aliveAt (applyConsensusKill [curseVictim]
        (some "x1") none none (some "x1")).1 "x1" = aliveAt [curseVictim] "x1" :=
  (curse_kill_exclusive [curseVictim]
      (some "x1") none none (some "x1") "x1" curseVictim
      rfl (by decide) (by decide) (by decide) (by decide)).1 rfl

/-- One salvation action preserves the invariant. -/
theorem witchSaveStep_inv (killT : Option String) (aid : String) (ps : List Player)
    (st : List Player × Option String) (action : Action)
    (h : SaveInv ps killT st) :
    SaveInv ps killT (witchSaveStep killT aid st action) := by
  unfold witchSaveStep
  cases hfa : findP st.1 aid with
  | none => exact h
  | some actor =>
    dsimp only
    by_cases hcond : (actor.role == some ROLE_WITCH && actor.alive
        && action.type == "SAVE") = true
    · rw [if_pos hcond]
      by_cases hc2 : (truthyS killT && killT == some action.targetId
          && !actor.attributes.hasSaved) = true
      · rw [if_pos hc2]
        simp only [Bool.and_eq_true, Bool.not_eq_true'] at hc2
        have htr : truthyS killT = true := hc2.1.1
        have hflag : actor.attributes.hasSaved = false := hc2.2
        have hstAid : hasSavedAt st.1 aid = some false := by
          simp [hasSavedAt, hfa, hflag]
        have hkn : killT ≠ none := by
          intro hkn
          rw [hkn] at htr
          simp [truthyS] at htr
        refine ⟨Or.inr ⟨rfl, htr⟩, fun hend => absurd hend hkn, ?_⟩
        intro pid
        by_cases hpid : pid = aid
        · subst hpid
          rcases h.2.2 pid with hsame | ⟨hps, hst, _, _⟩
          · refine Or.inr ⟨hsame ▸ hstAid, ?_, rfl, htr⟩
            simp [hasSavedAt,
              findP_updateP_self
                (fun p => { p with attributes := { p.attributes with hasSaved := true } })
                (fun _ => rfl) st.1 pid actor hfa]
          · rw [hstAid] at hst
            exact absurd hst (by simp)
        · have hkeep :
              hasSavedAt (updateP st.1 aid
                (fun p => { p with attributes := { p.attributes with hasSaved := true } })) pid
                = hasSavedAt st.1 pid := by
            simp [hasSavedAt,
              findP_updateP
                (fun p => { p with attributes := { p.attributes with hasSaved := true } })
                (fun _ => rfl), hpid]
          rcases h.2.2 pid with hsame | ⟨hps, hst, _, _⟩
          · exact Or.inl (hkeep.trans hsame)
          · exact Or.inr ⟨hps, hkeep.trans hst, rfl, htr⟩
      · rw [if_neg hc2]; exact h
    · rw [if_neg hcond]; exact h

/-- A player found by id is a member of the registry. -/
theorem findP_mem (ps : List Player) (pid : String) (q : Player)
    (h : findP ps pid = some q) : q ∈ ps := by
  induction ps with
  | nil => simp [findP] at h
  | cons p rest ih =>
    unfold findP at h
    by_cases hp : (p.id == pid) = true
    · rw [if_pos hp] at h
      injection h with h2
      exact h2 ▸ List.mem_cons_self p rest
    · rw [if_neg hp] at h
      exact List.mem_cons_of_mem p (ih h)

/-- When every witch of the registry has already used salvation, one
salvation action is a no-op: the success branch demands an unset `hasSaved`
flag on the acting witch. -/
theorem witchSaveStep_used (killT : Option String) (aid : String) (ps : List Player)
    (hall : ∀ q ∈ ps, q.role = some ROLE_WITCH → q.attributes.hasSaved = true)
    (st : List Player × Option String) (action : Action)
    (h : st.1 = ps ∧ st.2 = none) :
    (witchSaveStep killT aid st action).1 = ps ∧
    (witchSaveStep killT aid st action).2 = none := by
  unfold witchSaveStep
  cases hfa : findP st.1 aid with
  | none => exact h
  | some actor =>
    dsimp only
    by_cases hcond : (actor.role == some ROLE_WITCH && actor.alive
        && action.type == "SAVE") = true
    · rw [if_pos hcond]
      by_cases hc2 : (truthyS killT && killT == some action.targetId
          && !actor.attributes.hasSaved) = true
      · exfalso
        simp only [Bool.and_eq_true, Bool.not_eq_true'] at hcond hc2
        have hrole : actor.role = some ROLE_WITCH := eq_of_beq hcond.1.1
        have hmem : actor ∈ ps := by
          rw [h.1] at hfa
          exact findP_mem ps aid actor hfa
        have := hall actor hmem hrole
        rw [this] at hc2
        exact absurd hc2.2 (by simp)
      · rw [if_neg hc2]; exact h
    · rw [if_neg hcond]; exact h

/-- Claim C5.  The salvation collection succeeds only against the consensus
kill target of the night and only while the acting witch still has `hasSaved`
unset; the flag is set exactly alongside a success, a pass with no success
leaves the registry untouched, and - the once-per-game cap - once every witch
carries `hasSaved = true` the whole pass returns the registry unchanged with
no save at all.  So the limit is once per game, not once per night, as the
attached three-night scenario computes: the night-1 salvation against a
non-consensus target fails (its target dies, the flag stays unset), the
night-2 salvation against the new consensus target still succeeds, and the
night-3 salvation by the now-spent witch fails (its target dies, the flag
stays set). -/
theorem witch_save_once_per_game (ps : List Player) (acts : List (String × AVal))
    (killT : Option String) :
    ((collectWitchSave ps acts killT).2.isSome = true →
      (collectWitchSave ps acts killT).2 = killT ∧ truthyS killT = true) ∧
    (∀ pid, hasSavedAt (collectWitchSave ps acts killT).1 pid ≠ hasSavedAt ps pid →
      hasSavedAt ps pid = some false ∧
      hasSavedAt (collectWitchSave ps acts killT).1 pid = some true ∧
      (collectWitchSave ps acts killT).2 = killT ∧ truthyS killT = true) ∧
    ((collectWitchSave ps acts killT).2 = none → (collectWitchSave ps acts killT).1 = ps) ∧
    ((∀ q ∈ ps, q.role = some ROLE_WITCH → q.attributes.hasSaved = true) →
      collectWitchSave ps acts killT = (ps, none)) ∧
    (aliveAt (resolveNight saveRoom1).players "y1" = some false ∧
     hasSavedAt (resolveNight saveRoom1).players "t1" = some false ∧
     aliveAt (resolveNight saveRoom2).players "z1" = some true ∧
     hasSavedAt (resolveNight saveRoom2).players "t1" = some true ∧
     aliveAt (resolveNight saveRoom3).players "x1" = some false ∧
     hasSavedAt (resolveNight saveRoom3).players "t1" = some true) := by
  have hinv : SaveInv ps killT (collectWitchSave ps acts killT) := by
    unfold collectWitchSave
    refine foldl_preserves (SaveInv ps killT) _ ?_ acts (ps, none)
      ⟨Or.inl rfl, fun _ => rfl, fun _ => Or.inl rfl⟩
    intro st entry hst
    exact foldl_preserves (SaveInv ps killT) _
      (fun st2 action h2 => witchSaveStep_inv killT entry.1 ps st2 action h2)
      entry.2.asList st hst
  refine ⟨?_, ?_, hinv.2.1, ?_, by decide⟩
  · intro hsome
    rcases hinv.1 with hnone | hok
    · rw [hnone] at hsome; simp at hsome
    · exact hok
  · intro pid hne
    rcases hinv.2.2 pid with hsame | hok
    · exact absurd hsame hne
    · exact hok
  · intro hall
    have hcap : (collectWitchSave ps acts killT).1 = ps ∧
        (collectWitchSave ps acts killT).2 = none := by
      unfold collectWitchSave
      refine foldl_preserves
        (fun (st : List Player × Option String) => st.1 = ps ∧ st.2 = none)
        _ ?_ acts (ps, none) ⟨rfl, rfl⟩
      intro st entry hst
      exact foldl_preserves
        (fun (st : List Player × Option String) => st.1 = ps ∧ st.2 = none)
        _ (fun st2 action h2 => witchSaveStep_used killT entry.1 ps hall st2 action h2)
        entry.2.asList st hst
    exact Prod.ext_iff.mpr hcap

/-- Witness for C5: in the night-1 ledger of the scenario the salvation
result is empty, so the registry is returned unchanged; after the successful
night-2 save the witch is flagged, and the night-3 salvation pass on that
registry is a no-op. -/
theorem witch_save_once_per_game_wit :
    (collectWitchSave saveRoom1.players saveRoom1.actions
        (nightKillTargetOf saveRoom1)).1 = saveRoom1.players ∧
    hasSavedAt (resolveNight saveRoom2).players "t1" = some true ∧
    collectWitchSave (resolveNight saveRoom2).players saveRoom3.actions
        (nightKillTargetOf saveRoom3)
      = ((resolveNight saveRoom2).players, none) :=
  ⟨(witch_save_once_per_game saveRoom1.players saveRoom1.actions
      (nightKillTargetOf saveRoom1)).2.2.1 (by decide),
   (witch_save_once_per_game saveRoom1.players saveRoom1.actions
      (nightKillTargetOf saveRoom1)).2.2.2.2.2.2.2.1,
   (witch_save_once_per_game (resolveNight saveRoom2).players saveRoom3.actions
      (nightKillTargetOf saveRoom3)).2.2.2.1 (by decide)⟩

/-- The win evaluator never changes the player registry. -/
theorem checkWin_players (room : Room) : (checkWin room).players = room.players := by
  unfold checkWin
  dsimp only
  split <;> (try split) <;> (try split) <;> (try split) <;> rfl

/-- `finishVerdict` never changes the player registry. -/
theorem finishVerdict_players (room : Room) :
    (finishVerdict room).players = room.players := by
  unfold finishVerdict
  dsimp only
  split
  · exact checkWin_players room
  · exact checkWin_players room

/-- The win evaluator leaves the phase alone when the wolves neither died out
nor reached parity. -/
theorem checkWin_phase_of_no_win (room : Room)
    (hW : wolvesCount room.players ≠ 0)
    (hO : wolvesCount room.players < othersCount room.players) :
    (checkWin room).phase = room.phase := by
  unfold checkWin
  dsimp only
  rw [if_neg (show ¬((wolvesCount room.players == 0) = true) by simp [hW]),
      if_neg (Nat.not_le.mpr hO)]
  split <;> (try split) <;> rfl

/-- `finishVerdict` advances to `execution_reveal` when the game is not over. -/
theorem finishVerdict_phase (room : Room)
    (hph : room.phase ≠ "end")
    (hW : wolvesCount room.players ≠ 0)
    (hO : wolvesCount room.players < othersCount room.players) :
    (finishVerdict room).phase = "execution_reveal" := by
  unfold finishVerdict
  have hcw : (checkWin room).phase = room.phase := checkWin_phase_of_no_win room hW hO
  rw [if_neg (by simp [hcw, hph])]

/-- Claim C6.  In `resolveFinalVerdict` the pending target is marked dead iff
EXECUTE ballots strictly outnumber SPARE ballots; on a tie (or SPARE
majority) the target alive flag is untouched and, when the game is not yet
decided, the room proceeds to `execution_reveal`. -/
theorem final_verdict_strict_majority (room : Room) (vid : String) (victim : Player)
    (h1 : room.pendingExecutionId = some vid)
    (h2 : findP room.players vid = some victim)
    (hph : room.phase = "final_verdict") :
    (aliveAt (resolveFinalVerdict room).players vid =
      (if spareCount room < executeCount room then some false
       else aliveAt room.players vid)) ∧
    (¬(spareCount room < executeCount room) →
      wolvesCount room.players ≠ 0 →
      wolvesCount room.players < othersCount room.players →
      (resolveFinalVerdict room).phase = "execution_reveal") := by
  unfold resolveFinalVerdict
  rw [h1]
  dsimp only
  rw [h2]
  dsimp only
  by_cases hlt : spareCount room < executeCount room
  · rw [if_pos hlt]
    dsimp only [Option.getD]
    have hkilled :
        aliveAt (updateP room.players vid (fun p => { p with alive := false })) vid
          = some false := by
      simp [aliveAt,
        findP_updateP_self (fun p => { p with alive := false })
          (fun _ => rfl) room.players vid victim h2]
    constructor
    · rw [if_pos hlt]
      by_cases htr : (victim.role == some ROLE_TRAITOR && room.day == 1) = true
      · rw [if_pos htr]
        exact hkilled
      · rw [if_neg htr]
        by_cases hhu : (victim.role == some ROLE_HUNTER
            && truthyS victim.attributes.pinnedTargetId) = true
        · rw [if_pos hhu]
          have hpt : truthyS victim.attributes.pinnedTargetId = true :=
            (Bool.and_eq_true _ _ |>.mp hhu).2
          cases hpin : victim.attributes.pinnedTargetId with
          | none => rw [hpin] at hpt; simp [truthyS] at hpt
          | some pid =>
            dsimp only
            cases hft : findP (updateP room.players vid
                (fun p => { p with alive := false })) pid with
            | none =>
              rw [finishVerdict_players]
              exact hkilled
            | some tgt =>
              dsimp only
              by_cases hta : tgt.alive = true
              · rw [if_pos hta]
                rw [finishVerdict_players]
                have hpv : vid ≠ pid := by
                  intro hvp
                  subst hvp
                  rw [findP_updateP_self (fun p => { p with alive := false })
                      (fun _ => rfl) room.players vid victim h2] at hft
                  cases hft
                  simp at hta
                rw [aliveAt_update_kill_ne _ pid vid hpv]
                exact hkilled
              · rw [if_neg hta]
                rw [finishVerdict_players]
                exact hkilled
        · rw [if_neg hhu]
          rw [finishVerdict_players]
          exact hkilled
    · intro hcontra
      exact absurd hlt hcontra
  · rw [if_neg hlt]
    constructor
    · rw [if_neg hlt]
      rw [finishVerdict_players]
    · intro _ hW hO
      refine finishVerdict_phase _ ?_ hW hO
      simp [hph]

/-- Witness for C6: the 2-2 verdict of `verdictRoom` spares `y1` and the
room proceeds to the reveal phase. -/
theorem final_verdict_strict_majority_wit :
    aliveAt (resolveFinalVerdict verdictRoom).players "y1" =
      (if spareCount verdictRoom < executeCount verdictRoom then some false
       else aliveAt verdictRoom.players "y1") ∧
    (resolveFinalVerdict verdictRoom).phase = "execution_reveal" := by
  have h := final_verdict_strict_majority verdictRoom "y1"
    { id := "y1", name := "Yani", role := some ROLE_VILLAGER,
      faction := some FACTION_VILLAGER }
    (by decide) (by decide) (by decide)
  exact ⟨h.1, h.2 (by decide) (by decide) (by decide)⟩

/-- An update that preserves the key view preserves the key view of the
whole registry. -/
theorem keyView_updateP (f : Player → Player) (hkv : ∀ q, keyView (f q) = keyView q)
    (ps : List Player) (k : String) :
    (updateP ps k f).map keyView = ps.map keyView := by
  induction ps with
  | nil => rfl
  | cons p rest ih =>
    unfold updateP
    by_cases h : (p.id == k) = true
    · rw [if_pos h]
      simp [hkv p]
    · rw [if_neg h]
      simp [ih]

/-- Registries with equal key views agree on lookups, up to the key view. -/
theorem findP_keyView (ps : List Player) :
    ∀ (qs : List Player), ps.map keyView = qs.map keyView →
    ∀ j, (findP ps j).map keyView = (findP qs j).map keyView := by
  induction ps with
  | nil =>
    intro qs h j
    cases qs with
    | nil => rfl
    | cons q qrest => simp at h
  | cons p rest ih =>
    intro qs h j
    cases qs with
    | nil => simp at h
    | cons q qrest =>
      simp only [List.map_cons, List.cons.injEq] at h
      have hid : p.id = q.id := congrArg Prod.fst h.1
      unfold findP
      by_cases hpj : (p.id == j) = true
      · rw [if_pos hpj, if_pos (by rw [← hid]; exact hpj)]
        simp [h.1]
      · rw [if_neg hpj, if_neg (by rw [← hid]; exact hpj)]
        exact ih qrest h.2 j

/-- Members of `mapSet` are the new pair or old members. -/
theorem mem_mapSet {α : Type} (m : List (String × α)) (k : String) (v : α)
    (e : String × α) (h : e ∈ mapSet m k v) : e = (k, v) ∨ e ∈ m := by
  induction m with
  | nil =>
    unfold mapSet at h
    simp at h
    exact Or.inl h
  | cons e0 rest ih =>
    unfold mapSet at h
    by_cases h0 : (e0.1 == k) = true
    · rw [if_pos h0] at h
      rcases List.mem_cons.mp h with h1 | h1
      · exact Or.inl h1
      · exact Or.inr (List.mem_cons_of_mem _ h1)
    · rw [if_neg h0] at h
      rcases List.mem_cons.mp h with h1 | h1
      · exact Or.inr (h1 ▸ List.mem_cons_self _ _)
      · rcases ih h1 with h2 | h2
        · exact Or.inl h2
        · exact Or.inr (List.mem_cons_of_mem _ h2)

/-- Every count in a ballot tally is at least one. -/
theorem tally_counts_pos (bs : List String) :
    ∀ e ∈ tallyBallots bs, 1 ≤ e.2 := by
  unfold tallyBallots
  refine foldl_preserves (fun (m : List (String × Nat)) => ∀ e ∈ m, 1 ≤ e.2) _ ?_ bs []
    (by intro e h; simp at h)
  intro m b hm e he
  rcases mem_mapSet m b _ e he with h1 | h1
  · rw [h1]; exact Nat.le_add_left 1 _
  · exact hm e h1

/-- One step of the wolf-action collection: the counter map advances by
exactly the ballots the entry contributes, and the registry keeps its key
view. -/
theorem mainStep_facts (ps0 ps : List Player) (kills : List (String × Nat))
    (curse det : Option String) (aid : String) (data : AVal)
    (h : ps.map keyView = ps0.map keyView) :
    ((mainStep (ps, kills, curse, det) (aid, data)).1).map keyView = ps0.map keyView ∧
    (mainStep (ps, kills, curse, det) (aid, data)).2.1
      = List.foldl mapIncr kills (wolfBallotHead ps0 aid data) := by
  have hfind := findP_keyView ps ps0 h aid
  unfold mainStep wolfBallotHead
  cases h0 : findP ps0 aid with
  | none =>
    have h1 : findP ps aid = none := by
      rw [h0] at hfind
      simpa using hfind
    rw [h1]
    dsimp only
    exact ⟨h, rfl⟩
  | some a0 =>
    cases h1 : findP ps aid with
    | none =>
      rw [h0, h1] at hfind
      simp at hfind
    | some a =>
      rw [h0, h1] at hfind
      simp only [Option.map_some', Option.some.injEq] at hfind
      have hrole : a.role = a0.role := congrArg (fun x => x.2.1) hfind
      have halv : a.alive = a0.alive := congrArg (fun x => x.2.2) hfind
      dsimp only
      by_cases hal : a.alive = true
      · rw [if_pos hal, if_pos (by rw [← halv]; exact hal)]
        cases data with
        | one act =>
          dsimp only
          constructor
          · split
            · exact (keyView_updateP
                (fun p => { p with attributes := { p.attributes with hasCursed := true } })
                (fun _ => rfl) ps aid).trans h
            · exact h
          · rw [← hrole]
            by_cases hk : ((a.role == some ROLE_WOLF || a.role == some ROLE_ALPHA_WOLF)
                && act.type == "KILL") = true
            · rw [if_pos hk, if_pos hk]; rfl
            · rw [if_neg hk, if_neg hk]; rfl
        | many as => dsimp only; exact ⟨h, rfl⟩
        | raw s => dsimp only; exact ⟨h, rfl⟩
      · rw [if_neg hal, if_neg (by rw [← halv]; exact hal)]
        exact ⟨h, rfl⟩

/-- The interleaved step-1 fold counts exactly the wolf ballots of the
ledger, read against any registry with the same key view. -/
theorem collectMain_go (acts : List (String × AVal)) :
    ∀ (ps0 ps : List Player) (kills : List (String × Nat)) (curse det : Option String),
      ps.map keyView = ps0.map keyView →
      (acts.foldl mainStep (ps, kills, curse, det)).2.1
        = List.foldl mapIncr kills (wolfBallots acts ps0) := by
  induction acts with
  | nil => intro ps0 ps kills curse det _; rfl
  | cons e rest ih =>
    intro ps0 ps kills curse det h
    cases e with
    | mk aid data =>
      have hfacts := mainStep_facts ps0 ps kills curse det aid data h
      simp only [List.foldl_cons, wolfBallots, List.foldl_append]
      rw [← hfacts.2]
      exact ih ps0 (mainStep (ps, kills, curse, det) (aid, data)).1
        (mainStep (ps, kills, curse, det) (aid, data)).2.1
        (mainStep (ps, kills, curse, det) (aid, data)).2.2.1
        (mainStep (ps, kills, curse, det) (aid, data)).2.2.2 hfacts.1

/-- The night wolf-kill counter map is the tally of the wolf ballots. -/
theorem collectMain_kills (ps : List Player) (acts : List (String × AVal)) :
    (collectMain ps acts).2.1 = tallyBallots (wolfBallots acts ps) :=
  collectMain_go acts ps ps [] none none rfl

/-- The day-vote fold with any starting accumulator counts exactly the
truthy non-SKIP ballots. -/
theorem dayCounts_go (votes : List (String × Option String)) :
    ∀ (m : List (String × Nat)),
      votes.foldl
        (fun m e =>
          match e.2 with
          | some t => if !(t == "") && !(t == "SKIP") then mapIncr m t else m
          | none => m) m
        = List.foldl mapIncr m (nonSkipBallots votes) := by
  induction votes with
  | nil => intro m; rfl
  | cons e rest ih =>
    intro m
    cases e with
    | mk vid tv =>
      cases tv with
      | none =>
        simp only [List.foldl_cons, nonSkipBallots]
        exact ih m
      | some t =>
        simp only [List.foldl_cons, nonSkipBallots, List.foldl_append]
        by_cases hc : (!(t == "") && !(t == "SKIP")) = true
        · rw [if_pos hc, if_pos hc]
          exact ih (mapIncr m t)
        · rw [if_neg hc, if_neg hc]
          exact ih m

/-- The day-vote counter map is the tally of the non-SKIP ballots. -/
theorem dayVoteCounts_eq (votes : List (String × Option String)) :
    dayVoteCounts votes = tallyBallots (nonSkipBallots votes) := by
  unfold dayVoteCounts tallyBallots
  exact dayCounts_go votes []

/-- The running strict-maximum loop with any starting state selects the
first entry whose count equals the overall maximum (when that maximum beats
the starting state). -/
theorem pickMax_go (l : List (String × Nat)) :
    ∀ (m : Nat) (t : Option String),
      (l.foldl (fun acc e => if acc.1 < e.2 then (e.2, some e.1) else acc) (m, t)).2
        = if maxCount l ≤ m then t
          else (l.find? (fun e => decide (maxCount l ≤ e.2))).map Prod.fst := by
  induction l with
  | nil => intro m t; simp [maxCount]
  | cons e rest ih =>
    intro m t
    cases e with
    | mk k c =>
      have hmax : maxCount ((k, c) :: rest) = max c (maxCount rest) := rfl
      simp only [List.foldl_cons, hmax]
      by_cases hmc : m < c
      · rw [if_pos hmc, ih c (some k)]
        by_cases hMc : maxCount rest ≤ c
        · rw [if_pos hMc]
          rw [max_eq_left hMc]
          rw [if_neg (Nat.not_le.mpr hmc)]
          rw [List.find?_cons_of_pos _ (by simp)]
          rfl
        · rw [if_neg hMc]
          have hcM : c < maxCount rest := lt_of_not_le hMc
          rw [max_eq_right (le_of_lt hcM)]
          rw [if_neg (by omega)]
          rw [List.find?_cons_of_neg _ (by simp; omega)]
      · rw [if_neg hmc, ih m t]
        have hcm : c ≤ m := Nat.le_of_not_lt hmc
        by_cases hM : max c (maxCount rest) ≤ m
        · rw [if_pos (le_trans (le_max_right c _) hM), if_pos hM]
        · rw [if_neg hM]
          have hMrm : ¬(maxCount rest ≤ m) := fun hh => hM (max_le hcm hh)
          rw [if_neg hMrm]
          have h1 : max c (maxCount rest) = maxCount rest := by
            rcases le_total c (maxCount rest) with hle | hle
            · exact max_eq_right hle
            · exact absurd (by rw [max_eq_left hle]; exact hcm) hM
          rw [h1]
          rw [List.find?_cons_of_neg _ (by simp; omega)]

/-- The selection both tallies apply picks the first tally entry that
reaches the maximum count - the target with the earliest first ballot among
those tied at the maximum. -/
theorem selectPlurality_eq_firstMax (bs : List String) :
    selectPlurality bs
      = ((tallyBallots bs).find?
          (fun e => decide (maxCount (tallyBallots bs) ≤ e.2))).map Prod.fst := by
  unfold selectPlurality pickMax
  rw [pickMax_go]
  cases hl : tallyBallots bs with
  | nil => simp [maxCount]
  | cons e rest =>
    have hpos : 1 ≤ e.2 := tally_counts_pos bs e (hl ▸ List.mem_cons_self e rest)
    have hle : e.2 ≤ maxCount (e :: rest) := le_max_left _ _
    rw [if_neg (by omega)]

/-- Claim C7 (amended).  The night consensus aggregation and the day-vote
tally reduce to the same selection function over their ballot lists, so both
use one deterministic tie-break; that tie-break picks, among targets tied at
the maximum final count, the first entry of the insertion-ordered counter
map - the target whose first ballot appears earliest in the ledger - not the
target whose running count first attains the maximum. -/
theorem plurality_tiebreak_shared (room : Room)
    (votes : List (String × Option String)) (bs : List String) :
    nightKillTargetOf room = selectPlurality (wolfBallots room.actions room.players) ∧
    dayVoteTargetOf votes = selectPlurality (nonSkipBallots votes) ∧
    selectPlurality bs
      = ((tallyBallots bs).find?
          (fun e => decide (maxCount (tallyBallots bs) ≤ e.2))).map Prod.fst := by
  refine ⟨?_, ?_, selectPlurality_eq_firstMax bs⟩
  · unfold nightKillTargetOf nightCollected selectPlurality
    rw [collectMain_kills]
  · unfold dayVoteTargetOf selectPlurality
    rw [dayVoteCounts_eq]

/-- Counterexample for C7 as stated: with ballots `A, B, B, A` the code
selects `A` (earliest first ballot among the 2-2 tie) in both tallies, while
the first target whose running count reaches the maximum during aggregation
is `B`. -/
theorem plurality_first_reach_cex :
    nightKillTargetOf tieNightRoom = some "A" ∧
    specFirstToReachMax (wolfBallots tieNightRoom.actions tieNightRoom.players) = some "B" ∧
    dayVoteTargetOf tieDayVotes = some "A" ∧
    specFirstToReachMax (nonSkipBallots tieDayVotes) = some "B" :=
  ⟨by decide, by decide, by decide, by decide⟩

/-- Counterexample for C1 as stated: `endRoom` is in phase `end` with a
non-null winner, yet `submitAction` by the surviving wolf succeeds and
appends to the (previously empty) action ledger instead of failing. -/
theorem submitAction_end_not_rejected :
    endRoom.phase = "end" ∧ endRoom.winner = some "WOLVES" ∧
    endRoom.actions = [] ∧
    submittedActions (submitAction endRoom "w1" "KILL" "h1")
      = some [("w1", AVal.one ⟨"KILL", "h1"⟩)] :=
  ⟨by decide, by decide, by decide, by decide⟩

/-- Claim C1 (amended).  `submitAction` never consults `phase` or `winner`:
for any room - in particular one in phase `end` - a call by an existing
alive actor that does not trip the bodyguard repeat-protection rule (witch
aside, whose ledger entry accumulates) succeeds and mutates the room, while
a missing room, or an unknown or dead actor, is rejected with an error
before any mutation. -/
theorem submitAction_ignores_phase (room : Room) (pid atype tid : String)
    (player : Player)
    (hfind : findP room.players pid = some player)
    (halive : player.alive = true)
    (hwitch : player.role ≠ some ROLE_WITCH)
    (hbg : ¬(player.role = some ROLE_BODYGUARD ∧ atype = "PROTECT"
        ∧ player.attributes.lastProtectedId = some tid)) :
    submitAction room pid atype tid =
      .ok ({ room with
               actions := mapSet room.actions pid (AVal.one ⟨atype, tid⟩),
               players := updateP room.players pid (fun p => { p with hasVoted := true }) },
           { actorName := player.name, actorRole := player.role, actionType := atype,
             targetName := receiptTargetName room tid }) := by
  unfold submitAction
  rw [hfind]
  dsimp only
  rw [if_neg (show ¬((!player.alive) = true) by simp [halive])]
  rw [if_neg (show ¬((player.role == some ROLE_BODYGUARD && atype == "PROTECT"
      && player.attributes.lastProtectedId == some tid) = true) by
    intro hc
    simp only [Bool.and_eq_true, beq_iff_eq] at hc
    exact hbg ⟨hc.1.1, hc.1.2, hc.2⟩)]
  rw [if_neg (show ¬((player.role == some ROLE_WITCH) = true) by simp [hwitch])]

/-- Witness for C1: the amended statement applied to the ended room. -/
theorem submitAction_ignores_phase_wit :
    submitAction endRoom "w1" "KILL" "h1" =
      .ok ({ endRoom with
               actions := mapSet endRoom.actions "w1" (AVal.one ⟨"KILL", "h1"⟩),
               players := updateP endRoom.players "w1"
                 (fun p => { p with hasVoted := true }) },
           { actorName := "Walt", actorRole := some ROLE_WOLF, actionType := "KILL",
             targetName := receiptTargetName endRoom "h1" }) :=
  submitAction_ignores_phase endRoom "w1" "KILL" "h1"
    { id := "w1", name := "Walt", role := some ROLE_WOLF, faction := some FACTION_WOLF }
    (by decide) (by decide) (by decide) (by decide)

/-- Counterexample for C8 as stated: `midGameRoom` is in phase `night`, not
`lobby`, yet `startGame` by the host succeeds (restarting the game) instead
of failing with a configuration error. -/
theorem startGame_no_lobby_check_cex :
    midGameRoom.phase = "night" ∧
    startedPhaseDay (startGame midGameRoom "h1" [("wolf", 1)]
      (fun _ => 0) "bot" "btok" 0) = some ("night", 1) :=
  ⟨by decide, by decide⟩

/-- Claim C8 (amended).  `startGame` rejects exactly the callers that are
neither the host nor the enabled AI host, with a permission error raised
before any mutation; the room phase is never examined, and on success the
phase becomes `night` and the day counter 1. -/
theorem startGame_permission_only (room : Room) (hostId : String)
    (cfg : List (String × Nat)) (rand : Nat → Nat) (botId botToken : String)
    (now : Nat) :
    (findP room.players hostId = none →
      startGame room hostId cfg rand botId botToken now = .error "Permission denied") ∧
    (∀ host, findP room.players hostId = some host → host.isHost = false →
      (room.aiHostEnabled && room.aiHostId == some hostId) = false →
      startGame room hostId cfg rand botId botToken now = .error "Permission denied") ∧
    (∀ host, findP room.players hostId = some host → host.isHost = true →
      startedPhaseDay (startGame room hostId cfg rand botId botToken now)
        = some ("night", 1)) := by
  refine ⟨?_, ?_, ?_⟩
  · intro h
    unfold startGame
    rw [h]
  · intro host h hh hai
    unfold startGame
    rw [h]
    dsimp only
    rw [if_pos (by simp [hh, hai])]
  · intro host h hh
    unfold startGame
    rw [h]
    dsimp only
    rw [if_neg (by simp [hh])]
    rfl

/-- Witness for C8: the host of `midGameRoom` may start, a stranger may not. -/
theorem startGame_permission_only_wit :
    startedPhaseDay (startGame midGameRoom "h1" [("wolf", 1)]
      (fun _ => 0) "bot" "btok" 0) = some ("night", 1) ∧
    startGame midGameRoom "p1" [("wolf", 1)] (fun _ => 0) "bot" "btok" 0
      = .error "Permission denied" :=
  ⟨(startGame_permission_only midGameRoom "h1" [("wolf", 1)]
      (fun _ => 0) "bot" "btok" 0).2.2
      { id := "h1", name := "Host", isHost := true } (by decide) (by decide),
   (startGame_permission_only midGameRoom "p1" [("wolf", 1)]
      (fun _ => 0) "bot" "btok" 0).2.1
      { id := "p1", name := "Pia" } (by decide) (by decide) (by decide)⟩

/-- Updating the first token match is found again by the same token, when
the update preserves the token. -/
theorem findByToken_updateFirstWhere (ps : List Player) (tok : String)
    (f : Player → Player) (hf : ∀ q, (f q).token = q.token) :
    findByToken (updateFirstWhere ps (fun p => p.token == tok) f) tok
      = (findByToken ps tok).map f := by
  induction ps with
  | nil => rfl
  | cons p rest ih =>
    unfold updateFirstWhere
    by_cases h : (p.token == tok) = true
    · rw [if_pos h]
      unfold findByToken
      rw [if_pos (by rw [hf p]; exact h), if_pos h]
      rfl
    · rw [if_neg h]
      unfold findByToken
      rw [if_neg h, if_neg h]
      exact ih

/-- A player found by token carries that token. -/
theorem findByToken_token (ps : List Player) (tok : String) (q : Player)
    (h : findByToken ps tok = some q) : q.token = tok := by
  induction ps with
  | nil => simp [findByToken] at h
  | cons p rest ih =>
    unfold findByToken at h
    by_cases hp : (p.token == tok) = true
    · rw [if_pos hp] at h
      injection h with h2
      rw [← h2]
      exact eq_of_beq hp
    · rw [if_neg hp] at h
      exact ih h

/-- Token lookup commutes with a token-preserving map over the registry. -/
theorem findByToken_map (ps : List Player) (tok : String) (g : Player → Player)
    (hg : ∀ q, (g q).token = q.token) :
    findByToken (ps.map g) tok = (findByToken ps tok).map g := by
  induction ps with
  | nil => rfl
  | cons p rest ih =>
    simp only [List.map_cons]
    unfold findByToken
    by_cases h : (p.token == tok) = true
    · rw [if_pos (by rw [hg p]; exact h), if_pos h]
      rfl
    · rw [if_neg (by rw [hg p]; exact h), if_neg h]
      exact ih

/-- Claim C9.  `joinRoom` with a truthy reconnect token that matches an
existing player always succeeds - regardless of the room phase and of the
player limit - returning that player id with `reconnected = true` and
marking the player connected; the started-game and room-full rejections are
reached only without a token match. -/
theorem joinRoom_reconnect_always (room : Room) (tok : String) (q : Player)
    (hne : tok ≠ "")
    (hfind : findByToken room.players tok = some q)
    (name newId newToken : String) (now : Nat) :
    joinOutcome (joinRoom room name (some tok) newId newToken now)
      = some { playerId := q.id, token := q.token, reconnected := true } ∧
    ((joinedRoom (joinRoom room name (some tok) newId newToken now)).bind
        (fun r => (findByToken r.players tok).map (·.connected))) = some true := by
  unfold joinRoom
  dsimp only
  rw [if_pos (show (!(tok == "")) = true by simp [hne])]
  rw [hfind]
  dsimp only
  constructor
  · rfl
  · unfold joinedRoom
    dsimp only
    rw [Option.some_bind]
    have hqt : q.token = tok := findByToken_token room.players tok q hfind
    rw [hqt]
    split
    · unfold resetAliveState
      dsimp only [Room.players]
      rw [findByToken_map _ tok (fun p => { p with alive := true, connected := true, hasVoted := false, attributes := ({} : Attributes) }) (fun _ => rfl)]
      rw [findByToken_updateFirstWhere room.players tok (fun p => { p with connected := true }) (fun _ => rfl)]
      rw [hfind]
      rfl
    · dsimp only [Room.players]
      rw [findByToken_updateFirstWhere room.players tok (fun p => { p with connected := true }) (fun _ => rfl)]
      rw [hfind]
      rfl

/-- Witness for C9: `fullRoom` is mid-game and at its player cap, yet the
reconnect of `p2` succeeds. -/
theorem joinRoom_reconnect_always_wit :
    joinOutcome (joinRoom fullRoom "Pat" (some "tok2") "n1" "ntok" 7)
      = some { playerId := "p2", token := "tok2", reconnected := true } ∧
    ((joinedRoom (joinRoom fullRoom "Pat" (some "tok2") "n1" "ntok" 7)).bind
        (fun r => (findByToken r.players "tok2").map (·.connected))) = some true :=
  joinRoom_reconnect_always fullRoom "tok2"
    { id := "p2", name := "Pat", token := "tok2", connected := false }
    (by decide) (by decide) "Pat" "n1" "ntok" 7

/-- Claim C10.  `submitVote` is total and never throws: a missing room, a
phase that is neither `vote` nor `final_verdict`, or an unknown or dead
voter all return `null` and leave the room exactly as it was. -/
theorem submitVote_silent_noop (room : Room) (pid : String) (tid : Option String) :
    submitVote none pid tid = (none, none) ∧
    ((room.phase ≠ "vote" ∧ room.phase ≠ "final_verdict") ∨
      (∀ q, findP room.players pid = some q → q.alive = false) →
      submitVote (some room) pid tid = (some room, none)) := by
  refine ⟨rfl, ?_⟩
  intro h
  unfold submitVote
  dsimp only
  by_cases hph : (!(room.phase == "vote") && !(room.phase == "final_verdict")) = true
  · rw [if_pos hph]
  · rw [if_neg hph]
    rcases h with ⟨h1, h2⟩ | hdead
    · exact absurd (by simp [h1, h2]) hph
    · cases hf : findP room.players pid with
      | none => rfl
      | some q =>
        dsimp only
        rw [if_neg (by simp [hdead q hf])]

/-- Witness for C10: a ballot cast during the discussion phase of `dayRoom`
returns `null` and leaves the room unchanged; so does a ballot by the dead
player `d1` in a vote-phase copy of the room. -/
theorem submitVote_silent_noop_wit :
    submitVote (some dayRoom) "p1" (some "d1") = (some dayRoom, none) ∧
    submitVote (some { dayRoom with phase := "vote" }) "d1" (some "p1")
      = (some { dayRoom with phase := "vote" }, none) :=
  ⟨(submitVote_silent_noop dayRoom "p1" (some "d1")).2 (Or.inl (by decide)),
   (submitVote_silent_noop { dayRoom with phase := "vote" } "d1" (some "p1")).2
     (Or.inr (fun q hq => by
        have hd : findP ({ dayRoom with phase := "vote" } : Room).players "d1"
            = some { id := "d1", name := "Dan", alive := false } := by decide
        rw [hd] at hq
        injection hq with h2
        rw [← h2]))⟩

end MaSoi
